import Mathlib

/-!
Verification development for the crdt-bench-native doc-size benchmark.

The embedding covers `src/doc_size.rs` (report records, the sequential and
two-site drivers, the report table and its Markdown rendering) and
`benches/diamond-type.rs` (the DiamondTypeDoc engine wrapper).  The `Crdt`
trait, the crate-level `merge` helper, the engine name constants and the
internals of the external diamond-types crate are not part of the given
sources; where a definition depends on them it is modelled from the spec and
its doc comment says so.
-/

namespace CrdtBench

/-- One edit step of the workload (spec §3 Action; the items produced by
`get_automerge_actions`): a position, a deleted length and an inserted
string. -/
structure Action where
  pos : Nat
  del : Nat
  ins : String
deriving DecidableEq, Repr

/-- The `Result<bool, bool>` shape returned by `gc()` / `compression()`
(spec §4.1): `ok v` means the feature is configurable and `v` is the active
setting, `err v` means the feature is fixed at `v`. -/
inductive CapResult where
  | ok : Bool → CapResult
  | err : Bool → CapResult
deriving DecidableEq, Repr

/-- Modelled from the spec: the `Crdt` capability interface (§4.1/§6); the
trait itself lives in the crate's `lib.rs`, which is not among the given
sources.  Only the operations the doc-size benchmark uses are modelled, plus
the crate-level `merge` coordinator (§4.4) as the `merge` field.  An engine is
a record of pure state-transition functions over its state type `S`. -/
structure CrdtEngine (S : Type) where
  name : String
  create : Bool → Bool → S
  gc : S → CapResult
  compression : S → CapResult
  textDel : S → Nat → Nat → S
  textInsert : S → Nat → String → S
  encodeFull : S → List Nat
  merge : S → S → S × S

/-- `DocSizeReport` (src/doc_size.rs lines 9-15). -/
structure DocSizeReport where
  name : String
  dataset_name : String
  gc : CapResult
  compression : CapResult
  doc_size : Option Nat
deriving DecidableEq, Repr

/-- The per-action body shared by both drivers (src/doc_size.rs lines 53-59,
124-130 and 136-141): delete `del` units at `pos` when `del != 0`, then
insert `ins` at `pos` when `ins` is nonempty. -/
def applyAction {S : Type} (C : CrdtEngine S) (s : S) (a : Action) : S :=
  let s1 := if a.del ≠ 0 then C.textDel s a.pos a.del else s
  if a.ins = "" then s1 else C.textInsert s1 a.pos a.ins

/-- The capability check of both drivers (src/doc_size.rs lines 19-25 and
86-92), including the source's overwrite of `run`: the compression check
assigns `run` afresh instead of conjoining with the gc check. -/
def runFlag {S : Type} (C : CrdtEngine S) (gcReq compReq : Bool) : Bool :=
  let crdt := C.create gcReq compReq
  let run := true
  let run :=
    match C.gc crdt with
    | .err supportGc => supportGc == gcReq
    | .ok _ => run
  match C.compression crdt with
  | .err supportCompression => supportCompression == compReq
  | .ok _ => run

/-- Rust's `bool` Display. -/
def boolStr (b : Bool) : String := if b then "true" else "false"

/-- `map_or("x", to_string)` on a `Result<bool, bool>` (src/doc_size.rs
lines 67-69): the active setting for `Ok`, the sentinel `"x"` for `Err`. -/
def capStr (r : CapResult) : String :=
  match r with
  | .ok v => boolStr v
  | .err _ => "x"

/-- `Option<usize>` rendered as its value or the sentinel `"x"`
(src/doc_size.rs lines 70-72 and 196-199). -/
def sizeValStr (o : Option Nat) : String :=
  match o with
  | some s => toString s
  | none => "x"

/-- The console line printed per completed run (src/doc_size.rs lines 64-73
and 151-160): `<engine> gc <val> compression <val> doc_size <val>`. -/
def consoleLine (n : String) (g c : CapResult) (sz : Option Nat) : String :=
  n ++ " gc " ++ capStr g ++ " compression " ++ capStr c ++ " doc_size " ++ sizeValStr sz

/-- Final engine state of the sequential driver: every action applied in
order to the single instance (src/doc_size.rs lines 49-60). -/
def seqFinal {S : Type} (C : CrdtEngine S) (actions : List Action)
    (gcReq compReq : Bool) : S :=
  actions.foldl (applyAction C) (C.create gcReq compReq)

/-- `gen_report` (src/doc_size.rs lines 17-81).  The action list stands for
`get_automerge_actions()`; the progress bar is dropped (spec §5: purely
observational).  The second component collects the console lines printed by
the function; the skip branch (lines 27-35) returns without printing. -/
def gen_report {S : Type} (C : CrdtEngine S) (actions : List Action)
    (gcReq compReq : Bool) : DocSizeReport × List String :=
  let crdt := C.create gcReq compReq
  if runFlag C gcReq compReq = false then
    (⟨C.name, "automerge paper", C.gc crdt, C.compression crdt, none⟩, [])
  else
    let final := seqFinal C actions gcReq compReq
    let encoded := C.encodeFull final
    (⟨C.name, "automerge paper", C.gc final, C.compression final, some encoded.length⟩,
     [consoleLine C.name (C.gc final) (C.compression final) (some encoded.length)])

/-- One round of the two-site driver's window over the action stream
(src/doc_size.rs lines 119-147): the head action goes to instance A, the
next `r` actions (with `r = gen_range(1..11)` drawn from the generator, here
`1 + g i % 10` for the i-th draw) go to instance B, and the rest feeds the
following rounds.  `fuel` makes the recursion structural; fuel equal to the
list length is enough, because every round consumes at least one action. -/
def parallelRoundsF (g : Nat → Nat) : Nat → List Action → Nat → List (Action × List Action)
  | 0, _, _ => []
  | _ + 1, [], _ => []
  | fuel + 1, a :: rest, i =>
      let r := 1 + g i % 10
      (a, rest.take r) :: parallelRoundsF g fuel (rest.drop r) (i + 1)

/-- The complete round decomposition of the action stream performed by
`gen_report_parallel`'s while loop (src/doc_size.rs lines 119-147). -/
def parallelRounds (g : Nat → Nat) (actions : List Action) (i : Nat) :
    List (Action × List Action) :=
  parallelRoundsF g actions.length actions i

/-- The loop body of one round (src/doc_size.rs lines 119-147): apply the
round's single action to A, merge A and B, apply the round's batch to B,
merge again. -/
def applyRound {S : Type} (C : CrdtEngine S) (st : S × S) (round : Action × List Action) :
    S × S :=
  let A1 := applyAction C st.1 round.1
  let p := C.merge A1 st.2
  let B1 := round.2.foldl (applyAction C) p.2
  C.merge p.1 B1

/-- `gen_report_parallel` with the random seed as an explicit parameter.
Modelled from the spec: `StdRng` (an external crate) is modelled as a
deterministic raw stream `raw seed i` of generator outputs, one per
`gen_range(1..11)` call; `gen_range(1..11)` itself becomes `1 + raw seed i % 10`,
which always lies in `1..=10` exactly as the real call does.  Everything else
follows src/doc_size.rs lines 83-168. -/
def genReportParallelSeeded {S : Type} (raw : Nat → Nat → Nat) (seed : Nat)
    (C : CrdtEngine S) (actions : List Action) (gcReq compReq : Bool) :
    DocSizeReport × List String :=
  let crdt := C.create gcReq compReq
  let crdt2 := C.create gcReq compReq
  if runFlag C gcReq compReq = false then
    (⟨C.name, "automerge paper", C.gc crdt, C.compression crdt, none⟩, [])
  else
    let rounds := parallelRounds (raw seed) actions 0
    let fin := rounds.foldl (applyRound C) (crdt, crdt2)
    let encoded := C.encodeFull fin.1
    (⟨C.name, "automerge paper", C.gc fin.1, C.compression fin.1, some encoded.length⟩,
     [consoleLine C.name (C.gc fin.1) (C.compression fin.1) (some encoded.length)])

/-- `gen_report_parallel` (src/doc_size.rs lines 83-168): the generator is
seeded with the fixed constant 1 (`SeedableRng::seed_from_u64(1)`, line 103). -/
def gen_report_parallel {S : Type} (raw : Nat → Nat → Nat) (C : CrdtEngine S)
    (actions : List Action) (gcReq compReq : Bool) : DocSizeReport × List String :=
  genReportParallelSeeded raw 1 C actions gcReq compReq

/-- Instance A's final state in the two-site driver, whose encoded length is
the recorded metric (src/doc_size.rs line 148). -/
def parallelFinalA {S : Type} (raw : Nat → Nat → Nat) (C : CrdtEngine S)
    (actions : List Action) (gcReq compReq : Bool) : S :=
  ((parallelRounds (raw 1) actions 0).foldl (applyRound C)
    (C.create gcReq compReq, C.create gcReq compReq)).1

/-- `ReportTable` (src/doc_size.rs line 170): a map from engine name to the
engine's report records; modelled as an association list, looked up by key. -/
abbrev ReportTable := List (String × List DocSizeReport)

/-- `ReportTable::insert_report` (src/doc_size.rs lines 177-182):
`entry(name).or_insert(vec).push(report)`. -/
def insertReport (t : ReportTable) (n : String) (r : DocSizeReport) : ReportTable :=
  match t with
  | [] => [(n, [r])]
  | (k, v) :: rest =>
      if k = n then (k, v ++ [r]) :: rest
      else (k, v) :: insertReport rest n r

/-- `HashMap::get` on the report table. -/
def lookupTbl (t : ReportTable) (k : String) : Option (List DocSizeReport) :=
  (t.find? (fun e => e.1 == k)).map (fun e => e.2)

/-- Modelled from the spec: `LoroDoc::name()` (lib.rs is not among the given
sources); the name is fixed by the table header of src/doc_size.rs line 190
and spec §6. -/
def loroName : String := "loro"

/-- Modelled from the spec: `AutomergeDoc::name()` (lib.rs is not among the
given sources); fixed by src/doc_size.rs line 190 and spec §6. -/
def automergeName : String := "automerge"

/-- Modelled from the spec: `DiamondTypeDoc::name()` (lib.rs is not among
the given sources); fixed by src/doc_size.rs line 190 and spec §6. -/
def diamondTypeName : String := "diamond-type"

/-- Modelled from the spec: `YrsDoc::name()` (lib.rs is not among the given
sources); fixed by src/doc_size.rs line 190 and spec §6. -/
def yrsName : String := "yrs"

/-- One table cell, `format!(" {} |", size)` with the record's size or `"x"`
(src/doc_size.rs lines 196-200). -/
def cellStr (r : DocSizeReport) : String := " " ++ sizeValStr r.doc_size ++ " |"

/-- One data row of `to_all_md` (src/doc_size.rs lines 193-202): the row
label followed by one cell for each of the looked-up record vectors, indexed
positionally; an out-of-range index models the panicking `crdt[index]`. -/
def rowFor (loro dt yrs : List DocSizeReport) (title : String) (index : Nat) :
    Option String := do
  let a ← loro[index]?
  let b ← dt[index]?
  let c ← yrs[index]?
  pure ("\n|" ++ title ++ "|" ++ cellStr a ++ cellStr b ++ cellStr c)

/-- `ReportTable::to_all_md` (src/doc_size.rs lines 184-205).  `none` models
a panic: the source `unwrap`s the four name lookups (lines 186-189) and
indexes each record vector (line 196).  Note the data loop iterates only
`[loro, diamond_type, yrs]` (line 195): the `automerge` vector is looked up
and unwrapped but contributes no cells. -/
def to_all_md (t : ReportTable) : Option String := do
  let loro ← lookupTbl t loroName
  let _automerge ← lookupTbl t automergeName
  let dt ← lookupTbl t diamondTypeName
  let yrs ← lookupTbl t yrsName
  let header := "|     |  loro  | automerge | diamond-type | yrs |\n" ++
    "|  ----  | ----  |  ----  | ----  |  ----  |"
  let r0 ← rowFor loro dt yrs "" 0
  let r1 ← rowFor loro dt yrs "gc" 1
  let r2 ← rowFor loro dt yrs "compress" 2
  let r3 ← rowFor loro dt yrs "gc & compress" 3
  pure (header ++ r0 ++ r1 ++ r2 ++ r3 ++ "\n")

/-- `per_crdt` (src/doc_size.rs lines 210-223): run the chosen driver for
the four configurations in the fixed iteration order compression × gc =
(F,F),(F,T),(T,F),(T,T) and insert each report under the engine's name. -/
def per_crdt {S : Type} (raw : Nat → Nat → Nat) (C : CrdtEngine S)
    (actions : List Action) (parallel : Bool) (t : ReportTable) : ReportTable :=
  let reports := [(false, false), (false, true), (true, false), (true, true)].map
    (fun p =>
      if parallel then (gen_report_parallel raw C actions p.2 p.1).1
      else (gen_report C actions p.2 p.1).1)
  reports.foldl (fun acc r => insertReport acc C.name r) t

/-- `bench_document_size` (src/doc_size.rs lines 225-233): benchmark Loro,
then Yrs, then DiamondType; the `per_crdt::<AutomergeDoc>` call is commented
out in the source (line 229), so no record is ever inserted under the
automerge name. -/
def bench_document_size {SL SY SD : Type} (raw : Nat → Nat → Nat)
    (L : CrdtEngine SL) (Y : CrdtEngine SY) (D : CrdtEngine SD)
    (actions : List Action) (parallel : Bool) : ReportTable :=
  per_crdt raw D actions parallel
    (per_crdt raw Y actions parallel
      (per_crdt raw L actions parallel []))

/-- `run_doc_size` (src/doc_size.rs lines 235-238). -/
def run_doc_size {SL SY SD : Type} (raw : Nat → Nat → Nat)
    (L : CrdtEngine SL) (Y : CrdtEngine SY) (D : CrdtEngine SD)
    (actions : List Action) (parallel : Bool) : Option String :=
  to_all_md (bench_document_size raw L Y D actions parallel)

/-- Modelled from the spec: one entry of the diamond-types op log (the
ListCRDT crate is an external collaborator, spec §1/§6).  An op records the
replica identity that produced it (spec §3 Engine Instance: edits are
attributed to the per-instance agent token), its per-agent sequence number,
and the edit itself. -/
structure Op where
  agent : Nat
  seq : Nat
  pos : Nat
  del : Nat
  ins : String
deriving DecidableEq, Repr

/-- Modelled from the spec: the `DiamondTypeDoc` wrapper state
(benches/diamond-type.rs lines 10-13): the agent identity drawn at creation
(`rand::thread_rng().gen::<u64>()`, line 20, kept here as an explicit input
since ambient randomness has no shallow embedding), the op log, the next
per-agent sequence number and the branch's materialized text. -/
structure DTDoc where
  agentId : Nat
  nextSeq : Nat
  oplog : List Op
  text : String
deriving DecidableEq, Repr

/-- `DiamondTypeDoc::create` (benches/diamond-type.rs lines 18-26) with the
randomly drawn identity as an explicit argument: a fresh empty document
owned by agent `id`. -/
def dtCreate (id : Nat) : DTDoc := ⟨id, 0, [], ""⟩

/-- Insertion into the materialized text: keep `pos` characters, splice in
`s`, keep the rest. -/
def strInsert (t : String) (pos : Nat) (s : String) : String :=
  t.take pos ++ s ++ t.drop pos

/-- Deletion from the materialized text, `doc.delete(0, pos..len + pos)`
(benches/diamond-type.rs line 33): drop `len` characters at `pos`. -/
def strDelete (t : String) (pos len : Nat) : String :=
  t.take pos ++ t.drop (pos + len)

/-- `DiamondTypeDoc::text_insert` (benches/diamond-type.rs lines 28-30):
append the attributed insert op to the op log and update the branch. -/
def dtTextInsert (d : DTDoc) (pos : Nat) (s : String) : DTDoc :=
  { d with
    nextSeq := d.nextSeq + 1
    oplog := d.oplog ++ [⟨d.agentId, d.nextSeq, pos, 0, s⟩]
    text := strInsert d.text pos s }

/-- `DiamondTypeDoc::text_del` (benches/diamond-type.rs lines 32-34):
append the attributed delete op to the op log and update the branch. -/
def dtTextDel (d : DTDoc) (pos len : Nat) : DTDoc :=
  { d with
    nextSeq := d.nextSeq + 1
    oplog := d.oplog ++ [⟨d.agentId, d.nextSeq, pos, len, ""⟩]
    text := strDelete d.text pos len }

/-- Decimal serialization of a number as byte values, one per digit; the
agent identity is stored as `id.to_string()` (benches/diamond-type.rs
lines 21-24). -/
def natDigits (n : Nat) : List Nat := (Nat.toDigits 10 n).map Char.toNat

/-- The code points of a string as byte values. -/
def strBytes (s : String) : List Nat := s.data.map Char.toNat

/-- Modelled from the spec: the serialized form of one op inside an encoded
snapshot.  The op's agent is referenced through the snapshot's agent table
(a fixed-size tag here), so an op's byte count does not depend on the agent
identity's magnitude; the identity string itself is stored once in the
snapshot header (see `dtEncodeFull`). -/
def opBytes (op : Op) : List Nat :=
  1 :: (natDigits op.seq ++ natDigits op.pos ++ natDigits op.del ++ strBytes op.ins)

/-- Modelled from the spec: `DiamondTypeDoc::encode_full`, i.e.
`oplog.encode(ENCODE_FULL)` (benches/diamond-type.rs lines 68-70; the
encoder itself is external).  Per §4.1 the snapshot is a complete,
self-contained serialization of the document, so it carries the agent
identity token that attributes the edits (stored as its decimal string,
benches/diamond-type.rs line 21) followed by the serialized ops. -/
def dtEncodeFull (d : DTDoc) : List Nat :=
  natDigits d.agentId ++ d.oplog.flatMap opBytes

/-- Modelled from the spec: `DiamondTypeDoc::decode_full`
(benches/diamond-type.rs lines 72-77): `decode_and_add` merges the decoded
remote ops with the existing local state (spec §4.1: merging, not
replacing), then `branch.merge(oplog, local_version)` re-materializes the
text from the complete op log; `render` is the engine's deterministic
set-of-ops-to-text function. -/
def dtDecodeFull (render : Finset Op → String) (d : DTDoc) (u : List Op) : DTDoc :=
  let merged := d.oplog ++ u.filter (fun op => !(decide (op ∈ d.oplog)))
  { d with oplog := merged, text := render merged.toFinset }

/-- `DiamondTypeDoc::merge` (benches/diamond-type.rs lines 79-87): encode
each side's complete state (`EncodeOptions::default()` also serializes the
whole op log, modelled as the op set itself), then decode each snapshot into
the other side. -/
def dtMerge (render : Finset Op → String) (a b : DTDoc) : DTDoc × DTDoc :=
  let aToB := a.oplog
  let bToA := b.oplog
  (dtDecodeFull render a bToA, dtDecodeFull render b aToB)

/-- The DiamondTypeDoc engine packaged for the harness.  Modelled from the
spec: the trait's `gc()`/`compression()` for diamond-type (lib.rs is not
among the given sources) report the features as not configurable and
inherently off, `Err(false)` (§4.1). -/
def dtEngine (render : Finset Op → String) (id : Nat) : CrdtEngine DTDoc where
  name := diamondTypeName
  create := fun _ _ => dtCreate id
  gc := fun _ => .err false
  compression := fun _ => .err false
  textDel := fun d pos len => dtTextDel d pos len
  textInsert := fun d pos s => dtTextInsert d pos s
  encodeFull := dtEncodeFull
  merge := fun a b => dtMerge render a b

/-- A trivial render function (used to instantiate `render` at concrete
inputs; the sequential driver never consults it). -/
def renderEmpty : Finset Op → String := fun _ => ""

/-- A primitive engine call, for observing which operations a driver
invokes. -/
inductive LogCall where
  | delCall : Nat → Nat → LogCall
  | insCall : Nat → String → LogCall
deriving DecidableEq, Repr

/-- An engine whose state is the list of primitive text operations invoked
on it, in order; used to observe exactly which calls the drivers make. -/
def logEngine : CrdtEngine (List LogCall) where
  name := "log"
  create := fun _ _ => []
  gc := fun _ => .err false
  compression := fun _ => .err false
  textDel := fun s pos len => s ++ [LogCall.delCall pos len]
  textInsert := fun s pos t => s ++ [LogCall.insCall pos t]
  encodeFull := fun _ => []
  merge := fun a b => (a, b)

/-- The operations the claimed per-action pattern invokes: the deletion when
`del` is nonzero, then the insertion when `ins` is nonempty, each skipped
independently. -/
def expectedCalls (a : Action) : List LogCall :=
  (if a.del ≠ 0 then [LogCall.delCall a.pos a.del] else []) ++
  (if a.ins = "" then [] else [LogCall.insCall a.pos a.ins])

/-- A featureless engine with a given name: both capability queries report
`Err(false)`, state is trivial. -/
def constEngine (n : String) : CrdtEngine Unit where
  name := n
  create := fun _ _ => ()
  gc := fun _ => .err false
  compression := fun _ => .err false
  textDel := fun s _ _ => s
  textInsert := fun s _ _ => s
  encodeFull := fun _ => []
  merge := fun a b => (a, b)

/-- An engine whose compression query reports the fixed value `false`
(`Err(false)`) while gc is configurable; requesting compression on it makes
both drivers skip. -/
def skipEngine : CrdtEngine Unit where
  name := "skip"
  create := fun _ _ => ()
  gc := fun _ => .ok true
  compression := fun _ => .err false
  textDel := fun s _ _ => s
  textInsert := fun s _ _ => s
  encodeFull := fun _ => []
  merge := fun a b => (a, b)

/-- Observable events of one two-site run: an action applied to A, an action
applied to B, or a merge synchronization point. -/
inductive Ev where
  | applyA : Action → Ev
  | applyB : Action → Ev
  | sync : Ev
deriving DecidableEq, Repr

/-- The events of one round, in execution order (src/doc_size.rs lines
119-147): one action to A, a merge, the batch to B, a merge. -/
def roundTrace (p : Action × List Action) : List Ev :=
  Ev.applyA p.1 :: Ev.sync :: (p.2.map Ev.applyB ++ [Ev.sync])

/-- The full event trace of the two-site driver's loop. -/
def parTrace (g : Nat → Nat) (actions : List Action) : List Ev :=
  (parallelRounds g actions 0).flatMap roundTrace

/-- Split an event trace at its merge points: the list of maximal merge-free
segments (a trace with `k` merges yields `k + 1` segments). -/
def mergeSegs : List Ev → List (List Ev)
  | [] => [[]]
  | Ev.sync :: t => [] :: mergeSegs t
  | e :: t =>
      match mergeSegs t with
      | s :: ss => (e :: s) :: ss
      | [] => [[e]]

/-- Is this event an action applied to A? -/
def isApplyA : Ev → Bool
  | .applyA _ => true
  | _ => false

/-- Is this event an action applied to B? -/
def isApplyB : Ev → Bool
  | .applyB _ => true
  | _ => false

/-- One cell of the amended rendering claim: the record vector is looked up
by engine name, then indexed by the row's configuration position. -/
def cellFor (t : ReportTable) (engine : String) (index : Nat) : Option String := do
  let recs ← lookupTbl t engine
  let r ← recs[index]?
  pure (cellStr r)

/-- One data row of the amended rendering claim: the configuration label
followed by one cell per engine in the column order loro, diamond-type,
yrs — the automerge column receives no cell. -/
def amendedRow (t : ReportTable) (title : String) (index : Nat) : Option String := do
  let c1 ← cellFor t loroName index
  let c2 ← cellFor t diamondTypeName index
  let c3 ← cellFor t yrsName index
  pure ("\n|" ++ title ++ "|" ++ c1 ++ c2 ++ c3)

/-- The amended rendering claim as a definition: the four engine names must
all be present (the source unwraps all four lookups, automerge included),
and the output is the fixed header followed by one data row per
configuration label in the order "", "gc", "compress", "gc & compress",
each row carrying cells only for loro, diamond-type and yrs, looked up by
engine name. -/
def renderAmendedC2 (t : ReportTable) : Option String := do
  let _ ← lookupTbl t loroName
  let _ ← lookupTbl t automergeName
  let _ ← lookupTbl t diamondTypeName
  let _ ← lookupTbl t yrsName
  let r0 ← amendedRow t "" 0
  let r1 ← amendedRow t "gc" 1
  let r2 ← amendedRow t "compress" 2
  let r3 ← amendedRow t "gc & compress" 3
  pure ("|     |  loro  | automerge | diamond-type | yrs |\n" ++
    "|  ----  | ----  |  ----  | ----  |  ----  |" ++ r0 ++ r1 ++ r2 ++ r3 ++ "\n")

/-- A report record with the given engine name and size, as produced by a
completed run of an engine with both capabilities fixed off. -/
def mkRep (n : String) (sz : Nat) : DocSizeReport :=
  ⟨n, "automerge paper", .err false, .err false, some sz⟩

/-- A fully populated report table over all four engines with distinguishable
sizes. -/
def fullTable : ReportTable :=
  [(loroName, [mkRep loroName 11, mkRep loroName 12, mkRep loroName 13, mkRep loroName 14]),
   (automergeName,
    [mkRep automergeName 21, mkRep automergeName 22, mkRep automergeName 23, mkRep automergeName 24]),
   (diamondTypeName,
    [mkRep diamondTypeName 31, mkRep diamondTypeName 32, mkRep diamondTypeName 33, mkRep diamondTypeName 34]),
   (yrsName, [mkRep yrsName 41, mkRep yrsName 42, mkRep yrsName 43, mkRep yrsName 44])]

/-- C1: the skip policy is violated by the source.  On an engine whose two
capability queries both return `Err(false)` (as the modelled engines with
fixed-off features do), requesting `gc = true, compression = false` makes
`gc()` disagree with the requested setting, yet the run is NOT skipped: the
second check `run = support_compression == compression` (src/doc_size.rs
line 24 resp. 91) overwrites the `run = false` produced by the gc check, so
both drivers execute the benchmark and record a numeric `doc_size` instead
of `None`. -/
theorem C1_gc_mismatch_not_skipped :
    (constEngine "e").gc ((constEngine "e").create true false) = CapResult.err false ∧
    runFlag (constEngine "e") true false = true ∧
    (gen_report (constEngine "e") [⟨0, 0, "a"⟩] true false).1.doc_size = some 0 ∧
    (gen_report_parallel (fun _ _ => 0) (constEngine "e")
      [⟨0, 0, "a"⟩] true false).1.doc_size = some 0 :=
  ⟨rfl, rfl, rfl, rfl⟩

/-- C2 counterexample: rendering a fully populated table over all four
engines.  Every data row has exactly three cells — the sizes of loro (11-14),
diamond-type (31-34) and yrs (41-44) — while the automerge record sizes
(21-24) appear nowhere, refuting the claim that each data row has one cell
per engine in the header-column order loro, automerge, diamond-type, yrs. -/
theorem C2_counterexample :
    to_all_md fullTable =
      some ("|     |  loro  | automerge | diamond-type | yrs |\n" ++
        "|  ----  | ----  |  ----  | ----  |  ----  |" ++
        "\n|| 11 | 31 | 41 |" ++
        "\n|gc| 12 | 32 | 42 |" ++
        "\n|compress| 13 | 33 | 43 |" ++
        "\n|gc & compress| 14 | 34 | 44 |" ++ "\n") := by
  rfl

/-- C4 counterexample: two sequential-driver runs over the same single-action
workload and the same configuration, on fresh DiamondTypeDoc instances whose
randomly drawn agent identities serialize to different lengths ("1" vs
"10"), record different `doc_size` values (6 vs 7): the snapshot embeds the
identity token drawn by `rand::thread_rng()` at creation. -/
theorem C4_counterexample :
    (gen_report (dtEngine renderEmpty 1) [⟨0, 0, "a"⟩] false false).1.doc_size = some 6 ∧
    (gen_report (dtEngine renderEmpty 10) [⟨0, 0, "a"⟩] false false).1.doc_size = some 7 := by
  constructor <;> rfl

/-- C10 counterexample: a run skipped for a capability mismatch (requested
compression on an engine whose compression is fixed off) emits no console
line at all — the skip branch (src/doc_size.rs lines 27-35) returns before
the `println!` — refuting the claim that every run, including skipped ones,
emits exactly one line. -/
theorem C10_counterexample :
    (gen_report skipEngine [] true true).1.doc_size = none ∧
    (gen_report skipEngine [] true true).2 = [] :=
  ⟨rfl, rfl⟩

/-- C10 amended: every completed (non-skipped) run of either driver emits
exactly one console line `<engine> gc <val> compression <val> doc_size
<val>`, with the gc and compression values rendered as `"x"` when the
feature is not configurable and the size always numeric; a run skipped for a
capability mismatch emits no console line. -/
theorem C10_amended_line_policy {S : Type} (raw : Nat → Nat → Nat)
    (C : CrdtEngine S) (acts : List Action) (g c : Bool) :
    (gen_report C acts g c).2 =
      (if runFlag C g c then
        [consoleLine C.name (C.gc (seqFinal C acts g c))
          (C.compression (seqFinal C acts g c))
          (some (C.encodeFull (seqFinal C acts g c)).length)]
      else []) ∧
    (gen_report_parallel raw C acts g c).2 =
      (if runFlag C g c then
        [consoleLine C.name (C.gc (parallelFinalA raw C acts g c))
          (C.compression (parallelFinalA raw C acts g c))
          (some (C.encodeFull (parallelFinalA raw C acts g c)).length)]
      else []) := by
  cases h : runFlag C g c <;>
    simp [gen_report, gen_report_parallel, genReportParallelSeeded, parallelFinalA,
      seqFinal, h]

theorem amendedRow_eq_rowFor (t : ReportTable) (loro dt yrs : List DocSizeReport)
    (h1 : lookupTbl t loroName = some loro)
    (h3 : lookupTbl t diamondTypeName = some dt)
    (h4 : lookupTbl t yrsName = some yrs)
    (title : String) (index : Nat) :
    amendedRow t title index = rowFor loro dt yrs title index := by
  unfold amendedRow cellFor rowFor
  rw [h1, h3, h4]
  cases ha : loro[index]? <;> cases hb : dt[index]? <;> cases hc : yrs[index]? <;>
    simp [ha, hb, hc]

/-- C2 amended: the rendered table is the fixed header followed by one data
row per configuration label in the order "", "gc", "compress",
"gc & compress", where each data row carries one cell per engine in the
column order loro, diamond-type, yrs (the automerge column of the header
receives no cells, though its table entry is still looked up and must be
present), each cell being the record's encoded size or the sentinel "x" when
`doc_size` is `None`, with cells looked up by engine name rather than
insertion order. -/
theorem C2_amended_rendering (t : ReportTable) : to_all_md t = renderAmendedC2 t := by
  unfold to_all_md renderAmendedC2
  cases h1 : lookupTbl t loroName with
  | none => simp [h1]
  | some loro =>
    cases h2 : lookupTbl t automergeName with
    | none => simp [h1, h2]
    | some am =>
      cases h3 : lookupTbl t diamondTypeName with
      | none => simp [h1, h2, h3]
      | some dt =>
        cases h4 : lookupTbl t yrsName with
        | none => simp [h1, h2, h3, h4]
        | some yrs =>
          simp [h1, h2, h3, h4, amendedRow_eq_rowFor t loro dt yrs h1 h3 h4]

theorem lookupTbl_insertReport_ne (t : ReportTable) (n : String) (r : DocSizeReport)
    (m : String) (h : m ≠ n) : lookupTbl (insertReport t n r) m = lookupTbl t m := by
  have hnm : (n == m) = false := beq_eq_false_iff_ne.mpr (fun he => h he.symm)
  induction t with
  | nil => simp [insertReport, lookupTbl, List.find?_cons, hnm]
  | cons kv rest ih =>
    obtain ⟨k, v⟩ := kv
    unfold insertReport
    by_cases hk : k = n
    · subst hk
      simp [lookupTbl, List.find?_cons, hnm]
    · simp only [if_neg hk]
      cases hkm : (k == m) with
      | true => simp [lookupTbl, List.find?_cons, hkm]
      | false => simpa [lookupTbl, List.find?_cons, hkm] using ih

theorem lookupTbl_foldl_insert_ne (rs : List DocSizeReport) (t : ReportTable)
    (n m : String) (h : m ≠ n) :
    lookupTbl (rs.foldl (fun acc r => insertReport acc n r) t) m = lookupTbl t m := by
  induction rs generalizing t with
  | nil => rfl
  | cons r rs ih =>
    calc lookupTbl ((r :: rs).foldl (fun acc r => insertReport acc n r) t) m
        = lookupTbl (insertReport t n r) m := by
          simpa [List.foldl_cons] using ih (insertReport t n r)
      _ = lookupTbl t m := lookupTbl_insertReport_ne t n r m h

theorem lookupTbl_per_crdt_ne {S : Type} (raw : Nat → Nat → Nat) (C : CrdtEngine S)
    (acts : List Action) (parallel : Bool) (t : ReportTable) (m : String)
    (h : m ≠ C.name) :
    lookupTbl (per_crdt raw C acts parallel t) m = lookupTbl t m := by
  unfold per_crdt
  exact lookupTbl_foldl_insert_ne _ t C.name m h

/-- C3: for every boolean `parallel` (and any engines carrying the harness's
three benchmarked names), `run_doc_size` reaches the unwrap-on-None panic
before producing a table string: `to_all_md` unwraps the table entry keyed
by the automerge engine name, and `bench_document_size` (whose
`per_crdt::<AutomergeDoc>` call is commented out) never inserts any record
under that key, so the rendering aborts — modelled as `none` — on every
execution. -/
theorem C3_automerge_unwrap_panics {SL SY SD : Type} (raw : Nat → Nat → Nat)
    (L : CrdtEngine SL) (Y : CrdtEngine SY) (D : CrdtEngine SD)
    (acts : List Action) (parallel : Bool)
    (hL : L.name = loroName) (hY : Y.name = yrsName) (hD : D.name = diamondTypeName) :
    run_doc_size raw L Y D acts parallel = none := by
  have ham : lookupTbl (bench_document_size raw L Y D acts parallel) automergeName = none := by
    unfold bench_document_size
    rw [lookupTbl_per_crdt_ne _ _ _ _ _ _ (by rw [hD]; decide),
      lookupTbl_per_crdt_ne _ _ _ _ _ _ (by rw [hY]; decide),
      lookupTbl_per_crdt_ne _ _ _ _ _ _ (by rw [hL]; decide)]
    rfl
  unfold run_doc_size to_all_md
  cases hl : lookupTbl (bench_document_size raw L Y D acts parallel) loroName <;>
    simp [hl, ham]

/-- C3 witness: concrete engines carrying the three benchmarked names make
`run_doc_size` abort for both values of `parallel`. -/
theorem C3_witness :
    run_doc_size (fun _ _ => 0) (constEngine loroName) (constEngine yrsName)
      (constEngine diamondTypeName) [] false = none ∧
    run_doc_size (fun _ _ => 0) (constEngine loroName) (constEngine yrsName)
      (constEngine diamondTypeName) [] true = none :=
  ⟨C3_automerge_unwrap_panics _ _ _ _ _ _ rfl rfl rfl,
   C3_automerge_unwrap_panics _ _ _ _ _ _ rfl rfl rfl⟩

theorem dtDecodeFull_oplog_toFinset (render : Finset Op → String) (d : DTDoc)
    (u : List Op) :
    (dtDecodeFull render d u).oplog.toFinset = d.oplog.toFinset ∪ u.toFinset := by
  ext op
  simp only [dtDecodeFull, List.toFinset_append, Finset.mem_union, List.mem_toFinset,
    List.mem_filter, Bool.not_eq_eq_eq_not, Bool.not_true, decide_eq_false_iff_not]
  tauto

/-- C5: for every pair of DiamondTypeDoc instances A and B, however their op
logs were previously populated, `merge(A, B)` — realized by encoding each
side's complete state and decoding each snapshot into the other via
`decode_full` — leaves both sides with the same materialized text, and both
op logs equal (as sets) to the union of the two original op logs. -/
theorem C5_merge_converges (render : Finset Op → String) (A B : DTDoc) :
    ((dtMerge render A B).1.text = (dtMerge render A B).2.text) ∧
    (dtMerge render A B).1.oplog.toFinset = A.oplog.toFinset ∪ B.oplog.toFinset ∧
    (dtMerge render A B).2.oplog.toFinset = B.oplog.toFinset ∪ A.oplog.toFinset := by
  have h1 := dtDecodeFull_oplog_toFinset render A B.oplog
  have h2 := dtDecodeFull_oplog_toFinset render B A.oplog
  refine ⟨?_, h1, h2⟩
  calc (dtMerge render A B).1.text
      = render ((dtDecodeFull render A B.oplog).oplog.toFinset) := rfl
    _ = render (A.oplog.toFinset ∪ B.oplog.toFinset) := by rw [h1]
    _ = render (B.oplog.toFinset ∪ A.oplog.toFinset) := by rw [Finset.union_comm]
    _ = (dtMerge render A B).2.text := by rw [← h2]; rfl

/-- C9: merging two already-converged DiamondTypeDoc instances (equal op
history, with each branch text the render of its own op log) again leaves
both instances' text and the byte length of both instances' `encode_full()`
unchanged. -/
theorem C9_idempotent_merge (render : Finset Op → String) (A B : DTDoc)
    (hop : A.oplog = B.oplog)
    (hA : A.text = render A.oplog.toFinset)
    (hB : B.text = render B.oplog.toFinset) :
    ((dtMerge render A B).1.text = A.text) ∧
    ((dtMerge render A B).2.text = B.text) ∧
    (dtEncodeFull (dtMerge render A B).1).length = (dtEncodeFull A).length ∧
    (dtEncodeFull (dtMerge render A B).2).length = (dtEncodeFull B).length := by
  have hfB : B.oplog.filter (fun op => !(decide (op ∈ A.oplog))) = [] := by
    apply List.filter_eq_nil_iff.mpr
    intro a ha
    simp [hop, ha]
  have hfA : A.oplog.filter (fun op => !(decide (op ∈ B.oplog))) = [] := by
    apply List.filter_eq_nil_iff.mpr
    intro a ha
    simp [← hop, ha]
  have m1 : (dtMerge render A B).1.oplog = A.oplog := by
    simp [dtMerge, dtDecodeFull, hfB]
  have m2 : (dtMerge render A B).2.oplog = B.oplog := by
    simp [dtMerge, dtDecodeFull, hfA]
  have t1 : (dtMerge render A B).1.text
      = render ((dtMerge render A B).1.oplog.toFinset) := rfl
  have t2 : (dtMerge render A B).2.text
      = render ((dtMerge render A B).2.oplog.toFinset) := rfl
  have a1 : (dtMerge render A B).1.agentId = A.agentId := rfl
  have a2 : (dtMerge render A B).2.agentId = B.agentId := rfl
  refine ⟨?_, ?_, ?_, ?_⟩
  · rw [t1, m1, ← hA]
  · rw [t2, m2, ← hB]
  · unfold dtEncodeFull
    rw [m1, a1]
  · unfold dtEncodeFull
    rw [m2, a2]

/-- C9 witness: two freshly created converged instances with the same agent
identity satisfy the convergence hypotheses, and the repeated merge leaves
text and encoded length unchanged. -/
theorem C9_witness :
    ((dtMerge renderEmpty (dtCreate 5) (dtCreate 5)).1.text = (dtCreate 5).text) ∧
    ((dtMerge renderEmpty (dtCreate 5) (dtCreate 5)).2.text = (dtCreate 5).text) ∧
    (dtEncodeFull (dtMerge renderEmpty (dtCreate 5) (dtCreate 5)).1).length
      = (dtEncodeFull (dtCreate 5)).length ∧
    (dtEncodeFull (dtMerge renderEmpty (dtCreate 5) (dtCreate 5)).2).length
      = (dtEncodeFull (dtCreate 5)).length :=
  C9_idempotent_merge renderEmpty (dtCreate 5) (dtCreate 5) rfl rfl rfl

theorem applyAction_logEngine (a : Action) (l : List LogCall) :
    applyAction logEngine l a = l ++ expectedCalls a := by
  unfold applyAction expectedCalls logEngine
  by_cases hd : a.del ≠ 0 <;> by_cases hi : a.ins = "" <;> simp [hd, hi]

theorem foldl_logEngine (acts : List Action) (l : List LogCall) :
    acts.foldl (applyAction logEngine) l = l ++ acts.flatMap expectedCalls := by
  induction acts generalizing l with
  | nil => simp
  | cons a acts ih => simp [applyAction_logEngine, ih]

/-- C8: observed on an engine that logs its primitive calls, each action is
applied as the deletion of `del` units at `pos` followed by the insertion of
`ins` at `pos`; when `del = 0` no delete call is made and when `ins` is empty
no insert call is made, each skip independent of the other (`expectedCalls`).
The second conjunct covers the sequential driver's whole loop (a fold of
`applyAction`, exactly as `gen_report` applies it through `seqFinal`), the
third the two-site driver's round body `applyRound`. -/
theorem C8_per_action_pattern :
    (∀ (a : Action) (l : List LogCall),
      applyAction logEngine l a = l ++ expectedCalls a) ∧
    (∀ acts : List Action,
      acts.foldl (applyAction logEngine) [] = acts.flatMap expectedCalls) ∧
    (∀ (st : List LogCall × List LogCall) (p : Action × List Action),
      applyRound logEngine st p =
        (st.1 ++ expectedCalls p.1, st.2 ++ p.2.flatMap expectedCalls)) := by
  refine ⟨applyAction_logEngine, ?_, ?_⟩
  · intro acts
    simpa using foldl_logEngine acts []
  · intro st p
    have hm : ∀ a b : List LogCall, logEngine.merge a b = (a, b) := fun _ _ => rfl
    unfold applyRound
    simp [applyAction_logEngine, foldl_logEngine, hm]

theorem parallelRoundsF_batch_le (g : Nat → Nat) :
    ∀ (fuel : Nat) (acts : List Action) (i : Nat) (p : Action × List Action),
      p ∈ parallelRoundsF g fuel acts i → p.2.length ≤ 10 := by
  intro fuel
  induction fuel with
  | zero =>
    intro acts i p hp
    simp [parallelRoundsF] at hp
  | succ n ih =>
    intro acts i p hp
    cases acts with
    | nil => simp [parallelRoundsF] at hp
    | cons a rest =>
      simp only [parallelRoundsF, List.mem_cons] at hp
      rcases hp with h | h
      · have hr : 1 + g i % 10 ≤ 10 := by omega
        have := List.length_take_le (1 + g i % 10) rest
        rw [h]
        simpa using this.trans hr
      · exact ih _ _ _ h

theorem mergeSegs_applyB_prefix (bs : List Action) (rest : List Ev) :
    mergeSegs (bs.map Ev.applyB ++ Ev.sync :: rest) = bs.map Ev.applyB :: mergeSegs rest := by
  induction bs with
  | nil => rfl
  | cons b bs ih => simp [mergeSegs, ih]

theorem mergeSegs_roundTrace (p : Action × List Action) (rest : List Ev) :
    mergeSegs (roundTrace p ++ rest)
      = [Ev.applyA p.1] :: p.2.map Ev.applyB :: mergeSegs rest := by
  obtain ⟨a, bs⟩ := p
  have hshape : roundTrace (a, bs) ++ rest
      = Ev.applyA a :: Ev.sync :: (bs.map Ev.applyB ++ Ev.sync :: rest) := by
    simp [roundTrace]
  rw [hshape]
  simp [mergeSegs, mergeSegs_applyB_prefix]

theorem segs_counts (rounds : List (Action × List Action))
    (hb : ∀ p ∈ rounds, p.2.length ≤ 10) :
    ∀ seg ∈ mergeSegs (rounds.flatMap roundTrace),
      seg.countP isApplyB ≤ 10 ∧ seg.countP isApplyA ≤ 1 := by
  induction rounds with
  | nil =>
    intro seg hseg
    simp [mergeSegs] at hseg
    simp [hseg]
  | cons p rounds ih =>
    intro seg hseg
    rw [List.flatMap_cons, mergeSegs_roundTrace] at hseg
    rcases List.mem_cons.mp hseg with h | hseg2
    · subst h
      constructor <;> simp [List.countP_cons, isApplyA, isApplyB]
    · rcases List.mem_cons.mp hseg2 with h | h
      · subst h
        refine ⟨?_, ?_⟩
        · have hcount : (p.2.map Ev.applyB).countP isApplyB = p.2.length := by
            rw [List.countP_map]
            simp [isApplyB, Function.comp_def, List.countP_true]
          rw [hcount]
          exact hb p (List.mem_cons_self p rounds)
        · rw [List.countP_map]
          simp [isApplyA, Function.comp_def, List.countP_false]
      · exact ih (fun q hq => hb q (List.mem_cons_of_mem p hq)) seg h

/-- C6: in the two-site driver's event trace, every maximal merge-free
segment contains at most 10 actions applied to B and at most 1 action
applied to A: each round applies exactly one action to A, merges, applies a
batch of at most `r ∈ 1..=10` actions (fewer only when the stream runs out)
to B, and merges again. -/
theorem C6_two_site_batch_bounds (g : Nat → Nat) (acts : List Action)
    (seg : List Ev) (h : seg ∈ mergeSegs (parTrace g acts)) :
    seg.countP isApplyB ≤ 10 ∧ seg.countP isApplyA ≤ 1 :=
  segs_counts (parallelRounds g acts 0)
    (fun p hp => parallelRoundsF_batch_le g acts.length acts 0 p hp) seg h

/-- C6 witness: a concrete one-action run; its trace is
`[applyA a, sync, sync]` and the segment `[applyA a]` satisfies both
bounds. -/
theorem C6_witness :
    ([Ev.applyA ⟨0, 0, "a"⟩] ∈ mergeSegs (parTrace (fun _ => 0) [⟨0, 0, "a"⟩])) ∧
    ([Ev.applyA ⟨0, 0, "a"⟩].countP isApplyB ≤ 10 ∧
     [Ev.applyA ⟨0, 0, "a"⟩].countP isApplyA ≤ 1) :=
  ⟨by decide, C6_two_site_batch_bounds (fun _ => 0) [⟨0, 0, "a"⟩]
    [Ev.applyA ⟨0, 0, "a"⟩] (by decide)⟩

theorem parallelRoundsF_flatten (g : Nat → Nat) :
    ∀ (fuel : Nat) (acts : List Action) (i : Nat), acts.length ≤ fuel →
      (parallelRoundsF g fuel acts i).flatMap (fun p => p.1 :: p.2) = acts := by
  intro fuel
  induction fuel with
  | zero =>
    intro acts i h
    rw [List.length_eq_zero.mp (Nat.le_zero.mp h)]
    rfl
  | succ n ih =>
    intro acts i h
    cases acts with
    | nil => rfl
    | cons a rest =>
      have hlen : (rest.drop (1 + g i % 10)).length ≤ n := by
        rw [List.length_drop]
        simp at h
        omega
      simp only [parallelRoundsF, List.flatMap_cons, ih _ _ hlen]
      simp [List.take_append_drop]

/-- C7: the two-site driver (a) is the seed-parametric driver instantiated
at the fixed seed 1 — the only randomness source is the seeded stream, never
an ambient one; (b) consumes the action stream as a single forward cursor:
concatenating, round by round, A's single action with B's batch reproduces
the input sequence exactly, so every action is applied exactly once to
exactly one instance, in order; and (c) records, for a run that passes the
capability check, `doc_size = length of A's encode_full` after the stream is
exhausted, and `None` otherwise. -/
theorem C7_fixed_seed_single_cursor {S : Type} (raw : Nat → Nat → Nat)
    (C : CrdtEngine S) (acts : List Action) (g c : Bool) :
    gen_report_parallel raw C acts g c = genReportParallelSeeded raw 1 C acts g c ∧
    (parallelRounds (raw 1) acts 0).flatMap (fun p => p.1 :: p.2) = acts ∧
    (gen_report_parallel raw C acts g c).1.doc_size =
      (if runFlag C g c then
        some (C.encodeFull (parallelFinalA raw C acts g c)).length
      else none) := by
  refine ⟨rfl, parallelRoundsF_flatten (raw 1) acts.length acts 0 le_rfl, ?_⟩
  cases h : runFlag C g c <;>
    simp [gen_report_parallel, genReportParallelSeeded, parallelFinalA, h]

theorem dt_applyAction_sync (render : Finset Op → String) (id1 id2 : Nat) (a : Action)
    (d1 d2 : DTDoc) (hs : d1.nextSeq = d2.nextSeq)
    (hl : (d1.oplog.flatMap opBytes).length = (d2.oplog.flatMap opBytes).length) :
    (applyAction (dtEngine render id1) d1 a).nextSeq
      = (applyAction (dtEngine render id2) d2 a).nextSeq ∧
    ((applyAction (dtEngine render id1) d1 a).oplog.flatMap opBytes).length
      = ((applyAction (dtEngine render id2) d2 a).oplog.flatMap opBytes).length := by
  unfold applyAction dtEngine dtTextDel dtTextInsert
  by_cases hd : a.del ≠ 0 <;> by_cases hi : a.ins = "" <;>
    simp [hd, hi, opBytes, hs, hl]

theorem dt_foldl_sync (render : Finset Op → String) (id1 id2 : Nat) :
    ∀ (acts : List Action) (d1 d2 : DTDoc), d1.nextSeq = d2.nextSeq →
      (d1.oplog.flatMap opBytes).length = (d2.oplog.flatMap opBytes).length →
      (acts.foldl (applyAction (dtEngine render id1)) d1).nextSeq
        = (acts.foldl (applyAction (dtEngine render id2)) d2).nextSeq ∧
      ((acts.foldl (applyAction (dtEngine render id1)) d1).oplog.flatMap opBytes).length
        = ((acts.foldl (applyAction (dtEngine render id2)) d2).oplog.flatMap opBytes).length := by
  intro acts
  induction acts with
  | nil => intro d1 d2 hs hl; exact ⟨hs, hl⟩
  | cons a acts ih =>
    intro d1 d2 hs hl
    have hstep := dt_applyAction_sync render id1 id2 a d1 d2 hs hl
    simpa [List.foldl_cons] using
      ih (applyAction (dtEngine render id1) d1 a)
        (applyAction (dtEngine render id2) d2 a) hstep.1 hstep.2

theorem dt_applyAction_agent (render : Finset Op → String) (id : Nat) (a : Action)
    (d : DTDoc) : (applyAction (dtEngine render id) d a).agentId = d.agentId := by
  unfold applyAction dtEngine dtTextDel dtTextInsert
  by_cases hd : a.del ≠ 0 <;> by_cases hi : a.ins = "" <;> simp [hd, hi]

theorem dt_foldl_agent (render : Finset Op → String) (id : Nat) :
    ∀ (acts : List Action) (d : DTDoc),
      (acts.foldl (applyAction (dtEngine render id)) d).agentId = d.agentId := by
  intro acts
  induction acts with
  | nil => intro d; rfl
  | cons a acts ih =>
    intro d
    simpa [List.foldl_cons, dt_applyAction_agent] using
      (ih (applyAction (dtEngine render id) d a)).trans
        (dt_applyAction_agent render id a d)

/-- C4 amended: two sequential-driver runs with the same action sequence and
the same configuration on fresh DiamondTypeDoc instances yield identical
`doc_size` whenever the randomly drawn agent identities serialize to the
same number of decimal digits (in particular whenever the identity is the
same); the identity token is the only influence of run-to-run randomness on
the encoded length. -/
theorem C4_amended_determinism (render : Finset Op → String) (id1 id2 : Nat)
    (acts : List Action) (g c : Bool)
    (h : (natDigits id1).length = (natDigits id2).length) :
    (gen_report (dtEngine render id1) acts g c).1.doc_size
      = (gen_report (dtEngine render id2) acts g c).1.doc_size := by
  have hrun : runFlag (dtEngine render id1) g c = runFlag (dtEngine render id2) g c := rfl
  cases hr : runFlag (dtEngine render id2) g c
  · simp [gen_report, hrun, hr]
  · have hsync := dt_foldl_sync render id1 id2 acts (dtCreate id1) (dtCreate id2) rfl rfl
    have ha1 := dt_foldl_agent render id1 acts (dtCreate id1)
    have ha2 := dt_foldl_agent render id2 acts (dtCreate id2)
    have hlen : ∀ d : DTDoc, (dtEncodeFull d).length
        = (natDigits d.agentId).length + (d.oplog.flatMap opBytes).length := by
      intro d
      simp only [dtEncodeFull, List.length_append]
    have hproj : ∀ (idx : Nat) (d : DTDoc),
        (dtEngine render idx).encodeFull d = dtEncodeFull d := fun _ _ => rfl
    have hcreate : ∀ idx : Nat, (dtEngine render idx).create g c = dtCreate idx :=
      fun _ => rfl
    simp only [gen_report, hrun, hr, Bool.true_eq_false, if_false, seqFinal]
    rw [hproj, hproj, hcreate, hcreate, Option.some.injEq, hlen, hlen, ha1, ha2, hsync.2]
    simp [dtCreate, h]

/-- C4 witness: identities 3 and 7 have equal-length decimal serializations,
and the two runs record the same `doc_size`. -/
theorem C4_witness :
    ((natDigits 3).length = (natDigits 7).length) ∧
    (gen_report (dtEngine renderEmpty 3) [⟨0, 0, "a"⟩] false false).1.doc_size
      = (gen_report (dtEngine renderEmpty 7) [⟨0, 0, "a"⟩] false false).1.doc_size :=
  ⟨by decide, C4_amended_determinism renderEmpty 3 7 [⟨0, 0, "a"⟩] false false (by decide)⟩

end CrdtBench
